import Mathlib

/-! # Session model and OAuth start of the Descope Go SDK

A shallow embedding of `descope/auth/types.go` (the `Token` accessors,
`LoginOptions.IsJWTRequired`, `NewToken`, `NewAuthenticationInfo`) and of
`descope/auth/oauth.go`
(`oauth.Start`), with theorems about the embedded functions.

Conventions of the embedding:

* a Go `interface{}` value is a `Value` (the variant of dynamic types the code's
  type assertions distinguish);
* a Go `map[string]T` is an association list in which the first binding of a key
  is the binding of the map; a nil map is `none` where the code tests for it;
* a Go pointer that may be nil is an `Option`;
* a Go slice is a `List` (the nil slice and the empty slice are both `[]`);
* helpers of other packages that `oauth.Start` calls are fields of an `Env`.
-/

namespace Descope

/-! ## Dynamic values and maps -/

/-- Dynamic value held by a Go `interface{}`: the nil interface, the JSON scalar
types, `[]interface{}`, `map[string]interface{}`, and `other` for every other
dynamic type (named by its Go type, e.g. `[]string`). -/
inductive Value where
  | null : Value
  | bool (b : Bool) : Value
  | num (n : Int) : Value
  | str (s : String) : Value
  | arr (xs : List Value) : Value
  | obj (kvs : List (String × Value)) : Value
  | other (goType : String) : Value

/-- Go map with string keys, as an association list (first binding wins). -/
abbrev GoMap (β : Type) := List (String × β)

namespace GoMap

/-- The comma-ok lookup `v, ok := m[k]`: `some v` when the key is present. -/
def lookup {β : Type} : GoMap β → String → Option β
  | [], _ => none
  | (k', v) :: rest, k => if k' = k then some v else lookup rest k

/-- The keys of a map, each once, in iteration order (`for k := range m`). -/
def keys {β : Type} : GoMap β → List String
  | [] => []
  | (k, _) :: rest => k :: (keys rest).filter (fun k' => decide (k' ≠ k))

/-- The assignment `m[k] = v`: replaces the binding of `k` or adds one. -/
def insert {β : Type} : GoMap β → String → β → GoMap β
  | [], k, v => [(k, v)]
  | (k', v') :: rest, k, v =>
    if k' = k then (k, v) :: rest else (k', v') :: insert rest k v

end GoMap

/-- The index expression `m[k]` on a `map[string]interface{}`: the zero value
(nil interface) when the key is absent. -/
def Value.index (m : GoMap Value) (k : String) : Value :=
  (GoMap.lookup m k).getD Value.null

/-! ## `types.go` -/

/-- Go `type AuthFactor string`. -/
abbrev AuthFactor := String

/-- Go constant `ClaimAuthorizedTenants`. -/
def ClaimAuthorizedTenants : String := "tenants"

/-- Go constant `RefreshCookieName`. -/
def RefreshCookieName : String := "DSR"

/-- Go `type Token struct`. `Claims` is `none` for a nil map. -/
structure Token where
  RefreshExpiration : Int
  Expiration : Int
  JWT : String
  ID : String
  ProjectID : String
  Claims : Option (GoMap Value)

/-- Go `func (to *Token) getTenants() map[string]any`. -/
def Token.getTenants (tok : Token) : GoMap Value :=
  match tok.Claims with
  | some claims =>
    match Value.index claims ClaimAuthorizedTenants with
    | Value.obj tenants => tenants
    | _ => []
  | none => []

/-- Go `func (to *Token) GetTenants() []string` (`maps.Keys` of `getTenants`). -/
def Token.GetTenants (tok : Token) : List String :=
  GoMap.keys tok.getTenants

/-- Go `func (to *Token) GetTenantValue(tenant, key string) any`. -/
def Token.GetTenantValue (tok : Token) (tenant key : String) : Value :=
  match Value.index tok.getTenants tenant with
  | Value.obj info => Value.index info key
  | _ => Value.null

/-- Go `func (to *Token) CustomClaim(value string) interface{}`, with the token
as it is after the call as second component. -/
def Token.CustomClaim (tok : Token) (value : String) : Value × Token :=
  match tok.Claims with
  | some claims => (Value.index claims value, tok)
  | none => (Value.null, tok)

/-- One iteration of the loop of `AuthFactors`: a string element is appended,
any other element is only logged. -/
def authFactorsStep (afs : List AuthFactor) (x : Value) : List AuthFactor :=
  match x with
  | Value.str af => afs ++ [af]
  | _ => afs

/-- Go `func (to *Token) AuthFactors() []AuthFactor`. -/
def Token.AuthFactors (tok : Token) : List AuthFactor :=
  match tok.Claims with
  | none => []
  | some claims =>
    match GoMap.lookup claims "amr" with
    | some factors =>
      match factors with
      | Value.arr factorsArr => factorsArr.foldl authFactorsStep []
      | _ => []
    | none => []

/-- Go `func (to *Token) IsMFA() bool`. -/
def Token.IsMFA (tok : Token) : Bool :=
  decide (tok.AuthFactors.length > 1)

/-- Go `type LoginOptions struct`. -/
structure LoginOptions where
  Stepup : Bool
  MFA : Bool
  CustomClaims : Option (GoMap Value)

/-- Go `func (lo *LoginOptions) IsJWTRequired() bool`:
`lo != nil && (lo.Stepup || lo.MFA)`. -/
def LoginOptions.IsJWTRequired (lo : Option LoginOptions) : Bool :=
  match lo with
  | none => false
  | some l => l.Stepup || l.MFA

/-- Go `time.Time`, by the instant it denotes: whole seconds since the Unix epoch
and the nanoseconds within the second. -/
structure Time where
  sec : Int
  nsec : Nat

/-- Go `func (t Time) Unix() int64`. -/
def Time.Unix (t : Time) : Int := t.sec

/-- A non-nil `jwt.Token` (interface of `lestrrat-go/jwx`), by the results of the
four getters `NewToken` calls on it. -/
structure JwtToken where
  Subject : String
  Issuer : String
  Expiration : Time
  PrivateClaims : Option (GoMap Value)

/-- Go `func NewToken(JWT string, token jwt.Token) *Token`. -/
def NewToken (JWT : String) (token : Option JwtToken) : Option Token :=
  match token with
  | none => none
  | some t =>
    some
      { RefreshExpiration := 0
        Expiration := t.Expiration.Unix
        JWT := JWT
        ID := t.Subject
        ProjectID := t.Issuer
        Claims := t.PrivateClaims }

/-- Go `type OAuthProvider string`. -/
abbrev OAuthProvider := String

/-! ## `oauth.go` -/

/-- Go `error` values: the package variable `errors.InvalidStepupJwtError` and
any other error, named by its message. -/
inductive GoError where
  | InvalidStepupJwtError : GoError
  | other (msg : String) : GoError
  deriving DecidableEq

/-- Run-time panics of the embedded code. -/
inductive GoPanic where
  | nilPointerDereference : GoPanic
  deriving DecidableEq

/-- Go `*http.Request`, by the cookies it carries (name and value). -/
structure Request where
  Cookies : List (String × String)

/-- Go `http.ResponseWriter`, by an identity. -/
structure ResponseWriter where
  id : Nat

/-- Go `api.HTTPRequest`, by the one field `Start` sets. -/
structure HTTPRequest where
  QueryParams : GoMap String

/-- Go `*http.Response`, by its status code. -/
structure RawResponse where
  StatusCode : Nat

/-- Go `api.HTTPResponse`: the underlying response (may be nil) and the body. -/
structure HTTPResponse where
  Res : Option RawResponse
  BodyStr : String

/-- Go `type oauthStartResponse struct`. -/
structure oauthStartResponse where
  URL : String

/-- The functions of other files and packages that `Start` calls.
`getValidRefreshToken` and `DoPostRequest` return Go pairs `(value, error)`;
`Unmarshal` takes the body and the struct to fill and returns the filled struct
with the error. -/
structure Env where
  getValidRefreshToken : Option Request → String × Option GoError
  composeOAuthURL : String
  DoPostRequest :
    String → Option LoginOptions → HTTPRequest → String → Option HTTPResponse × Option GoError
  Unmarshal : String → oauthStartResponse → oauthStartResponse × Option GoError

/-- Calls with an effect outside `Start`, in the order `Start` makes them. -/
inductive Event where
  | doPostRequest (uri : String) (body : Option LoginOptions) (options : HTTPRequest)
      (pswd : String) : Event
  | logError (format : String) (err : GoError) (arg : String) : Event
  | redirectToURL (url : String) (w : Option ResponseWriter) : Event

/-- How a call of `Start` ends: it returns `(url, err)` or it panics. -/
inductive Outcome where
  | returned (url : String) (err : Option GoError) : Outcome
  | panicked (p : GoPanic) : Outcome

/-- A run of `Start`: the calls it made and how it ended. -/
structure Run where
  trace : List Event
  outcome : Outcome

/-- The map `m` of `Start` (lines 21 to 26): the query parameters. -/
def oauth.queryParams (provider : OAuthProvider) (redirectURL : String) : GoMap String :=
  let m : GoMap String := [("provider", provider)]
  if redirectURL.utf8ByteSize > 0 then GoMap.insert m "redirectURL" redirectURL else m

/-- The values of `pswd` and `err` after lines 27 to 33 of `Start`, before the
test `err != nil`: those of `getValidRefreshToken(r)` when a JWT is required,
the zero values otherwise. -/
def oauth.credential (env : Env) (r : Option Request) (loginOptions : Option LoginOptions) :
    String × Option GoError :=
  if LoginOptions.IsJWTRequired loginOptions then env.getValidRefreshToken r else ("", none)

/-- Go `func (auth *oauth) Start(provider, redirectURL, r, loginOptions, w) (url string, err error)`. -/
def oauth.Start (env : Env) (provider : OAuthProvider) (redirectURL : String)
    (r : Option Request) (loginOptions : Option LoginOptions) (w : Option ResponseWriter) : Run :=
  let m := oauth.queryParams provider redirectURL
  match oauth.credential env r loginOptions with
  | (_, some _) => ⟨[], Outcome.returned "" (some GoError.InvalidStepupJwtError)⟩
  | (pswd, none) =>
    let post := Event.doPostRequest env.composeOAuthURL loginOptions ⟨m⟩ pswd
    match env.DoPostRequest env.composeOAuthURL loginOptions ⟨m⟩ pswd with
    | (_, some err) => ⟨[post], Outcome.returned "" (some err)⟩
    | (none, none) => ⟨[post], Outcome.panicked GoPanic.nilPointerDereference⟩
    | (some httpResponse, none) =>
      match httpResponse.Res with
      | none => ⟨[post], Outcome.returned "" none⟩
      | some _ =>
        match env.Unmarshal httpResponse.BodyStr ⟨""⟩ with
        | (_, some err) =>
          ⟨[post, Event.logError "failed to parse location from response for [%s]" err provider],
            Outcome.returned "" (some err)⟩
        | (res, none) =>
          ⟨[post, Event.redirectToURL res.URL w], Outcome.returned res.URL none⟩

/-- The outgoing requests of a trace: the arguments of its `DoPostRequest` calls. -/
def postRequests : List Event → List (String × Option LoginOptions × HTTPRequest × String)
  | [] => []
  | Event.doPostRequest uri body options pswd :: rest =>
    (uri, body, options, pswd) :: postRequests rest
  | _ :: rest => postRequests rest

/-- The redirects of a trace: the arguments of its `redirectToURL` calls. -/
def redirects : List Event → List (String × Option ResponseWriter)
  | [] => []
  | Event.redirectToURL url w :: rest => (url, w) :: redirects rest
  | _ :: rest => redirects rest

/-! ## The helpers of the step-up test -/

/-- Modelled from the spec: `getValidRefreshToken` of `auth.go`, which is not
among the sources. The refresh token arrives in the cookie named
`RefreshCookieName` of the inbound request; with no request, or no such cookie
with a value, there is no current token and the call fails. -/
def getValidRefreshToken (r : Option Request) : String × Option GoError :=
  match r with
  | none => ("", some (GoError.other "RefreshTokenError"))
  | some req =>
    match GoMap.lookup req.Cookies RefreshCookieName with
    | none => ("", some (GoError.other "RefreshTokenError"))
    | some refreshToken =>
      if refreshToken = "" then ("", some (GoError.other "RefreshTokenError"))
      else (refreshToken, none)

/-- Modelled from the spec: the bearer value the client of `api/client.go`, which
is not among the sources, sends in the `Authorization` header,
`<token>[:<refresh-token>]`: the project id, then a colon and `pswd` when `pswd`
is not empty. -/
def bearerValue (projectID pswd : String) : String :=
  if pswd.utf8ByteSize > 0 then projectID ++ ":" ++ pswd else projectID

/-- Go `strings.Split(s, sep)` for a separator of one character, on the
characters of `s`, as the test uses it on the bearer value. -/
def splitOnChar (sep : Char) : List Char → List (List Char)
  | [] => [[]]
  | c :: rest =>
    if c = sep then [] :: splitOnChar sep rest
    else
      match splitOnChar sep rest with
      | [] => [[c]]
      | part :: parts => (c :: part) :: parts

/-- The bearer values of the outgoing requests of a trace, each split at the
colons (`strings.Split(bearer, ":")` of the test). -/
def sentBearerParts (projectID : String) (trace : List Event) : List (List (List Char)) :=
  (postRequests trace).map (fun p => splitOnChar ':' (bearerValue projectID p.2.2.2).toList)

/-- An authority as the tests set it up: every request succeeds with the body
`body`, which parses to the URL `url`; refresh tokens are read from the cookie. -/
def testEnv (body url : String) : Env where
  getValidRefreshToken := getValidRefreshToken
  composeOAuthURL := "/v1/oauth/start"
  DoPostRequest := fun _ _ _ _ => (some ⟨some ⟨200⟩, body⟩, none)
  Unmarshal := fun b res =>
    if b = body then (⟨url⟩, none) else (res, some (GoError.other "invalid character"))

/-- An authority with fixed answers: every request gets `answer`, every body parses
to `parsed`; refresh tokens are read from the cookie. -/
def stubEnv (answer : Option HTTPResponse × Option GoError)
    (parsed : oauthStartResponse × Option GoError) : Env where
  getValidRefreshToken := getValidRefreshToken
  composeOAuthURL := "/v1/oauth/start"
  DoPostRequest := fun _ _ _ _ => answer
  Unmarshal := fun _ _ => parsed

/-! ## `types.go`: the authentication result -/

/-- Go `type User struct`. -/
structure User where
  Name : String
  Phone : String
  Email : String

/-- Go `type UserResponse struct` (the embedded `User` is the field `User`). -/
structure UserResponse where
  User : Descope.User
  UserID : String
  ExternalIDs : List String
  VerifiedEmail : Bool
  VerifiedPhone : Bool

/-- Go `type JWTResponse struct`. `User` is `none` for a nil pointer. -/
structure JWTResponse where
  SessionJwt : String
  RefreshJwt : String
  CookieDomain : String
  CookiePath : String
  CookieMaxAge : Int
  CookieExpiration : Int
  User : Option UserResponse
  FirstSeen : Bool

/-- The zero value `JWTResponse{}`. -/
def JWTResponse.zero : JWTResponse :=
  { SessionJwt := "", RefreshJwt := "", CookieDomain := "", CookiePath := ""
    CookieMaxAge := 0, CookieExpiration := 0, User := none, FirstSeen := false }

/-- Go `type AuthenticationInfo struct`. -/
structure AuthenticationInfo where
  SessionToken : Option Token
  User : Option UserResponse
  FirstSeen : Bool

/-- Go `func NewAuthenticationInfo(jRes *JWTResponse, token *Token) *AuthenticationInfo`
(the result is never nil). -/
def NewAuthenticationInfo (jRes : Option JWTResponse) (token : Option Token) :
    AuthenticationInfo :=
  let jRes : JWTResponse :=
    match jRes with
    | none => JWTResponse.zero
    | some j => j
  { SessionToken := token, User := jRes.User, FirstSeen := jRes.FirstSeen }

end Descope

namespace Descope

/-! ## The factor list of the specification -/

/-- The string held by a dynamic value, when it holds one (`x.(string)`). -/
def Value.asString : Value → Option String
  | Value.str s => some s
  | _ => none

/-- The factor list encoded in the reserved `amr` claim, in the words of the
specification: the ordered sequence of factor identifiers (strings) the claim
holds, and no factor when the token has no such sequence. -/
def encodedFactors (tok : Token) : List AuthFactor :=
  match tok.Claims with
  | none => []
  | some claims =>
    match GoMap.lookup claims "amr" with
    | some (Value.arr xs) => xs.filterMap Value.asString
    | _ => []

/-! ## Lemmas on the loop of `AuthFactors` -/

theorem foldl_authFactorsStep_filterMap (xs : List Value) (acc : List AuthFactor) :
    xs.foldl authFactorsStep acc = acc ++ xs.filterMap Value.asString := by
  induction xs generalizing acc with
  | nil => simp
  | cons x rest ih =>
    cases x <;> simp [List.foldl, authFactorsStep, Value.asString, ih]

theorem filterMap_asString_map_str (l : List String) :
    (l.map Value.str).filterMap Value.asString = l := by
  induction l with
  | nil => rfl
  | cons a rest ih =>
    simp only [List.map_cons, List.filterMap_cons, Value.asString, ih]

theorem AuthFactors_eq_encodedFactors (tok : Token) :
    tok.AuthFactors = encodedFactors tok := by
  unfold Token.AuthFactors encodedFactors
  cases tok.Claims with
  | none => rfl
  | some claims =>
    simp only []
    cases GoMap.lookup claims "amr" with
    | none => rfl
    | some v => cases v <;> simp [foldl_authFactorsStep_filterMap]

theorem AuthFactors_of_strings (tok : Token) (claims : GoMap Value) (l : List String)
    (hclaims : tok.Claims = some claims)
    (hamr : GoMap.lookup claims "amr" = some (Value.arr (l.map Value.str))) :
    tok.AuthFactors = l := by
  rw [AuthFactors_eq_encodedFactors]
  unfold encodedFactors
  rw [hclaims]
  simp only [hamr]
  exact filterMap_asString_map_str l

/-! ## Lemmas on maps -/

theorem GoMap.mem_keys_iff {β : Type} (m : GoMap β) (k : String) :
    k ∈ GoMap.keys m ↔ (GoMap.lookup m k).isSome = true := by
  induction m with
  | nil => simp [GoMap.keys, GoMap.lookup]
  | cons kv rest ih =>
    obtain ⟨k0, v⟩ := kv
    by_cases h : k0 = k
    · simp [GoMap.keys, GoMap.lookup, h]
    · have h2 : ¬ k = k0 := fun e => h e.symm
      simp [GoMap.keys, GoMap.lookup, h, h2, ih]

theorem GoMap.keys_nodup {β : Type} (m : GoMap β) : (GoMap.keys m).Nodup := by
  induction m with
  | nil => simp [GoMap.keys]
  | cons kv rest ih =>
    obtain ⟨k0, v⟩ := kv
    simp only [GoMap.keys, List.nodup_cons]
    refine ⟨?_, ih.filter _⟩
    simp [List.mem_filter]

theorem index_of_lookup_some (m : GoMap Value) (k : String) (v : Value)
    (h : GoMap.lookup m k = some v) : Value.index m k = v := by
  simp [Value.index, h]

theorem index_of_lookup_none (m : GoMap Value) (k : String)
    (h : GoMap.lookup m k = none) : Value.index m k = Value.null := by
  simp [Value.index, h]

theorem getTenants_of_obj (tok : Token) (claims tenants : GoMap Value)
    (hclaims : tok.Claims = some claims)
    (hten : GoMap.lookup claims ClaimAuthorizedTenants = some (Value.obj tenants)) :
    tok.getTenants = tenants := by
  simp [Token.getTenants, hclaims, index_of_lookup_some _ _ _ hten]

theorem getTenants_of_nil (tok : Token) (hclaims : tok.Claims = none) :
    tok.getTenants = [] := by
  simp [Token.getTenants, hclaims]

theorem getTenants_of_absent (tok : Token) (claims : GoMap Value)
    (hclaims : tok.Claims = some claims)
    (hten : GoMap.lookup claims ClaimAuthorizedTenants = none) :
    tok.getTenants = [] := by
  simp [Token.getTenants, hclaims, index_of_lookup_none _ _ hten]

theorem getTenants_of_not_obj (tok : Token) (claims : GoMap Value) (v : Value)
    (hclaims : tok.Claims = some claims)
    (hten : GoMap.lookup claims ClaimAuthorizedTenants = some v)
    (hv : ∀ m, v ≠ Value.obj m) :
    tok.getTenants = [] := by
  rw [Token.getTenants, hclaims]
  simp only []
  rw [index_of_lookup_some _ _ _ hten]
  cases v with
  | obj m => exact absurd rfl (hv m)
  | _ => rfl

theorem GetTenantValue_of_no_tenants (tok : Token) (tenant key : String)
    (h : tok.getTenants = []) : tok.GetTenantValue tenant key = Value.null := by
  simp [Token.GetTenantValue, h, Value.index, GoMap.lookup]

/-! ## Theorems on `types.go` -/

/-- C2: round trip of the factor list. For a token whose `amr` claim holds the
sequence of strings `l` (as a `[]interface{}` of strings), `AuthFactors()`
returns exactly `l`: same length, same elements, same order. -/
theorem AuthFactors_roundtrip (tok : Token) (claims : GoMap Value) (l : List String)
    (hclaims : tok.Claims = some claims)
    (hamr : GoMap.lookup claims "amr" = some (Value.arr (l.map Value.str))) :
    tok.AuthFactors = l := by
  exact AuthFactors_of_strings tok claims l hclaims hamr

/-- Witness of C2: the token with `amr = ["email", "totp"]`. -/
theorem AuthFactors_roundtrip_witness :
    Token.AuthFactors
        ⟨0, 0, "", "", "", some [("amr", Value.arr [Value.str "email", Value.str "totp"])]⟩
      = ["email", "totp"] :=
  AuthFactors_roundtrip _ [("amr", Value.arr [Value.str "email", Value.str "totp"])]
    ["email", "totp"] rfl rfl

/-- C3: `IsMFA()` is true if and only if the factor list encoded in the `amr`
claim (the factor identifiers it holds, `encodedFactors`) has more than one
element; in particular, for a token whose `amr` claim holds the sequence of
strings `l`, if and only if `l` has more than one element. -/
theorem IsMFA_iff_more_than_one_factor (tok : Token) :
    (tok.IsMFA = true ↔ 1 < (encodedFactors tok).length) ∧
    (∀ (claims : GoMap Value) (l : List String), tok.Claims = some claims →
      GoMap.lookup claims "amr" = some (Value.arr (l.map Value.str)) →
      (tok.IsMFA = true ↔ 1 < l.length)) := by
  refine ⟨?_, ?_⟩
  · simp [Token.IsMFA, AuthFactors_eq_encodedFactors]
  · intro claims l hclaims hamr
    simp [Token.IsMFA, AuthFactors_of_strings tok claims l hclaims hamr]

/-- Witness of C3: a token with two factors is MFA, by the second part of the
theorem at `l = ["email", "totp"]`. -/
theorem IsMFA_iff_more_than_one_factor_witness :
    Token.IsMFA
        ⟨0, 0, "", "", "", some [("amr", Value.arr [Value.str "email", Value.str "totp"])]⟩
      = true :=
  ((IsMFA_iff_more_than_one_factor
      ⟨0, 0, "", "", "", some [("amr", Value.arr [Value.str "email", Value.str "totp"])]⟩).2
    [("amr", Value.arr [Value.str "email", Value.str "totp"])] ["email", "totp"] rfl rfl).2
    (by decide)

/-- C4: `IsJWTRequired()` is true if and only if the options are non-nil and the
step-up flag or the MFA flag is set; on nil options it returns false (the
function is total: it never fails); the custom claims do not influence the
result. -/
theorem IsJWTRequired_iff :
    (∀ lo : Option LoginOptions, LoginOptions.IsJWTRequired lo = true ↔
      ∃ l, lo = some l ∧ (l.Stepup = true ∨ l.MFA = true)) ∧
    LoginOptions.IsJWTRequired none = false ∧
    (∀ (stepup mfa : Bool) (c c' : Option (GoMap Value)),
      LoginOptions.IsJWTRequired (some ⟨stepup, mfa, c⟩) =
        LoginOptions.IsJWTRequired (some ⟨stepup, mfa, c'⟩)) := by
  refine ⟨?_, rfl, fun _ _ _ _ => rfl⟩
  intro lo
  cases lo with
  | none => simp [LoginOptions.IsJWTRequired]
  | some l => simp [LoginOptions.IsJWTRequired]

/-- C5: for a non-nil validated token `t` and a raw string `s`, `NewToken(s, t)`
returns a token whose ID is the subject of `t`, ProjectID its issuer, Expiration
its expiry in unix seconds, Claims its private claims and JWT `s`, with
RefreshExpiration zero; `NewToken(s, nil)` returns nil. -/
theorem NewToken_fields (s : String) :
    (∀ t : JwtToken, ∃ tk, NewToken s (some t) = some tk ∧
      tk.ID = t.Subject ∧ tk.ProjectID = t.Issuer ∧ tk.Expiration = t.Expiration.Unix ∧
      tk.Claims = t.PrivateClaims ∧ tk.JWT = s ∧ tk.RefreshExpiration = 0) ∧
    NewToken s none = none :=
  ⟨fun _ => ⟨_, rfl, rfl, rfl, rfl, rfl, rfl, rfl⟩, rfl⟩

/-- C6: for a token whose `tenants` claim is a mapping, `GetTenants()` returns
the keys of that mapping, each once and nothing else; it returns the empty list
when the claims are nil, the claim is absent, or the claim is not a mapping. -/
theorem GetTenants_keys (tok : Token) :
    (∀ claims tenants : GoMap Value, tok.Claims = some claims →
      GoMap.lookup claims "tenants" = some (Value.obj tenants) →
      tok.GetTenants.Nodup ∧
        ∀ k, k ∈ tok.GetTenants ↔ (GoMap.lookup tenants k).isSome = true) ∧
    (tok.Claims = none → tok.GetTenants = []) ∧
    (∀ claims : GoMap Value, tok.Claims = some claims →
      GoMap.lookup claims "tenants" = none → tok.GetTenants = []) ∧
    (∀ (claims : GoMap Value) (v : Value), tok.Claims = some claims →
      GoMap.lookup claims "tenants" = some v → (∀ m, v ≠ Value.obj m) →
      tok.GetTenants = []) := by
  refine ⟨?_, ?_, ?_, ?_⟩
  · intro claims tenants hclaims hten
    have h : tok.getTenants = tenants := getTenants_of_obj tok claims tenants hclaims hten
    simp only [Token.GetTenants, h]
    exact ⟨GoMap.keys_nodup tenants, GoMap.mem_keys_iff tenants⟩
  · intro hclaims
    simp [Token.GetTenants, getTenants_of_nil tok hclaims, GoMap.keys]
  · intro claims hclaims hten
    simp [Token.GetTenants, getTenants_of_absent tok claims hclaims hten, GoMap.keys]
  · intro claims v hclaims hten hv
    simp [Token.GetTenants, getTenants_of_not_obj tok claims v hclaims hten hv, GoMap.keys]

/-- Witness of C6: a token with the tenants `t1` and `t2`; its tenant list has no
duplicate and holds `t1`. -/
theorem GetTenants_keys_witness :
    (Token.GetTenants ⟨0, 0, "", "", "", some [("tenants",
        Value.obj [("t1", Value.obj []), ("t2", Value.obj [("k", Value.str "v")])])]⟩).Nodup ∧
    "t1" ∈ Token.GetTenants ⟨0, 0, "", "", "", some [("tenants",
        Value.obj [("t1", Value.obj []), ("t2", Value.obj [("k", Value.str "v")])])]⟩ :=
  have h := (GetTenants_keys ⟨0, 0, "", "", "", some [("tenants",
        Value.obj [("t1", Value.obj []), ("t2", Value.obj [("k", Value.str "v")])])]⟩).1
      [("tenants", Value.obj [("t1", Value.obj []), ("t2", Value.obj [("k", Value.str "v")])])]
      [("t1", Value.obj []), ("t2", Value.obj [("k", Value.str "v")])] rfl rfl
  ⟨h.1, (h.2 "t1").2 rfl⟩

/-- C7: `GetTenantValue(tenant, key)` returns the value stored under `key` in the
attribute mapping of `tenant` inside the `tenants` claim; it returns nil when the
claims are nil, the `tenants` claim is absent or not a mapping, the tenant is not
listed, the entry of the tenant is not a mapping, or the key is absent. The
function is total: it never fails. -/
theorem GetTenantValue_spec (tok : Token) (tenant key : String) :
    (∀ (claims tenants info : GoMap Value) (v : Value), tok.Claims = some claims →
      GoMap.lookup claims "tenants" = some (Value.obj tenants) →
      GoMap.lookup tenants tenant = some (Value.obj info) →
      GoMap.lookup info key = some v → tok.GetTenantValue tenant key = v) ∧
    (tok.Claims = none → tok.GetTenantValue tenant key = Value.null) ∧
    (∀ claims : GoMap Value, tok.Claims = some claims →
      GoMap.lookup claims "tenants" = none → tok.GetTenantValue tenant key = Value.null) ∧
    (∀ (claims : GoMap Value) (v : Value), tok.Claims = some claims →
      GoMap.lookup claims "tenants" = some v → (∀ m, v ≠ Value.obj m) →
      tok.GetTenantValue tenant key = Value.null) ∧
    (∀ claims tenants : GoMap Value, tok.Claims = some claims →
      GoMap.lookup claims "tenants" = some (Value.obj tenants) →
      GoMap.lookup tenants tenant = none → tok.GetTenantValue tenant key = Value.null) ∧
    (∀ (claims tenants : GoMap Value) (e : Value), tok.Claims = some claims →
      GoMap.lookup claims "tenants" = some (Value.obj tenants) →
      GoMap.lookup tenants tenant = some e → (∀ m, e ≠ Value.obj m) →
      tok.GetTenantValue tenant key = Value.null) ∧
    (∀ claims tenants info : GoMap Value, tok.Claims = some claims →
      GoMap.lookup claims "tenants" = some (Value.obj tenants) →
      GoMap.lookup tenants tenant = some (Value.obj info) →
      GoMap.lookup info key = none → tok.GetTenantValue tenant key = Value.null) := by
  refine ⟨?_, ?_, ?_, ?_, ?_, ?_, ?_⟩
  · intro claims tenants info v hclaims hten hentry hkey
    rw [Token.GetTenantValue, getTenants_of_obj tok claims tenants hclaims hten,
      index_of_lookup_some _ _ _ hentry]
    exact index_of_lookup_some _ _ _ hkey
  · intro hclaims
    exact GetTenantValue_of_no_tenants tok tenant key (getTenants_of_nil tok hclaims)
  · intro claims hclaims hten
    exact GetTenantValue_of_no_tenants tok tenant key
      (getTenants_of_absent tok claims hclaims hten)
  · intro claims v hclaims hten hv
    exact GetTenantValue_of_no_tenants tok tenant key
      (getTenants_of_not_obj tok claims v hclaims hten hv)
  · intro claims tenants hclaims hten hentry
    rw [Token.GetTenantValue, getTenants_of_obj tok claims tenants hclaims hten,
      index_of_lookup_none _ _ hentry]
  · intro claims tenants e hclaims hten hentry he
    rw [Token.GetTenantValue, getTenants_of_obj tok claims tenants hclaims hten,
      index_of_lookup_some _ _ _ hentry]
    cases e with
    | obj m => exact absurd rfl (he m)
    | _ => rfl
  · intro claims tenants info hclaims hten hentry hkey
    rw [Token.GetTenantValue, getTenants_of_obj tok claims tenants hclaims hten,
      index_of_lookup_some _ _ _ hentry]
    exact index_of_lookup_none _ _ hkey

/-- Witness of C7: in the token with tenant `t2` holding `k = "v"`, the value of
`k` for `t2` is `"v"`. -/
theorem GetTenantValue_spec_witness :
    Token.GetTenantValue ⟨0, 0, "", "", "", some [("tenants",
        Value.obj [("t1", Value.obj []), ("t2", Value.obj [("k", Value.str "v")])])]⟩ "t2" "k"
      = Value.str "v" :=
  (GetTenantValue_spec ⟨0, 0, "", "", "", some [("tenants",
        Value.obj [("t1", Value.obj []), ("t2", Value.obj [("k", Value.str "v")])])]⟩ "t2" "k").1
    [("tenants", Value.obj [("t1", Value.obj []), ("t2", Value.obj [("k", Value.str "v")])])]
    [("t1", Value.obj []), ("t2", Value.obj [("k", Value.str "v")])]
    [("k", Value.str "v")] (Value.str "v") rfl rfl rfl rfl

/-- C8: `CustomClaim(name)` returns the value stored under `name` in the top-level
claim mapping, and nil when the mapping is nil or has no such name; the token
after the call is the token before it. -/
theorem CustomClaim_spec (tok : Token) (name : String) :
    (∀ (claims : GoMap Value) (v : Value), tok.Claims = some claims →
      GoMap.lookup claims name = some v → (tok.CustomClaim name).1 = v) ∧
    (tok.Claims = none → (tok.CustomClaim name).1 = Value.null) ∧
    (∀ claims : GoMap Value, tok.Claims = some claims →
      GoMap.lookup claims name = none → (tok.CustomClaim name).1 = Value.null) ∧
    (tok.CustomClaim name).2 = tok := by
  refine ⟨?_, ?_, ?_, ?_⟩
  · intro claims v hclaims hname
    simp [Token.CustomClaim, hclaims, index_of_lookup_some _ _ _ hname]
  · intro hclaims
    simp [Token.CustomClaim, hclaims]
  · intro claims hclaims hname
    simp [Token.CustomClaim, hclaims, index_of_lookup_none _ _ hname]
  · unfold Token.CustomClaim
    cases tok.Claims <;> rfl

/-- Witness of C8: the custom claim `k1` of a token whose claims hold `k1 = "v1"`. -/
theorem CustomClaim_spec_witness :
    (Token.CustomClaim ⟨0, 0, "", "", "", some [("k1", Value.str "v1")]⟩ "k1").1
      = Value.str "v1" :=
  (CustomClaim_spec ⟨0, 0, "", "", "", some [("k1", Value.str "v1")]⟩ "k1").1
    [("k1", Value.str "v1")] (Value.str "v1") rfl rfl

/-! ## Theorems on `oauth.go` -/

/-- C1: when the login options request step-up or MFA and `getValidRefreshToken`
fails on the request, `Start` returns the empty URL with
`errors.InvalidStepupJwtError`, and makes no call at all: in particular no
`DoPostRequest`. -/
theorem Start_stepup_without_token (env : Env) (provider : OAuthProvider)
    (redirectURL : String) (r : Option Request) (lo : LoginOptions)
    (w : Option ResponseWriter)
    (hflag : lo.Stepup = true ∨ lo.MFA = true)
    (hfail : (env.getValidRefreshToken r).2 ≠ none) :
    (oauth.Start env provider redirectURL r (some lo) w).outcome
        = Outcome.returned "" (some GoError.InvalidStepupJwtError) ∧
      (oauth.Start env provider redirectURL r (some lo) w).trace = [] ∧
      postRequests (oauth.Start env provider redirectURL r (some lo) w).trace = [] := by
  have hreq : LoginOptions.IsJWTRequired (some lo) = true := by
    simpa [LoginOptions.IsJWTRequired] using hflag
  have hcred : oauth.credential env r (some lo) = env.getValidRefreshToken r := by
    simp [oauth.credential, hreq]
  rcases hpe : env.getValidRefreshToken r with ⟨p, e⟩
  rw [hpe] at hfail hcred
  cases e with
  | none => exact absurd rfl hfail
  | some err => simp [oauth.Start, hcred, postRequests]

/-- Witness of C1: the step-up start of the test `TestSignInWebAuthnStepupNoJWT`,
with a nil request and `LoginOptions{Stepup: true}`. -/
theorem Start_stepup_without_token_witness :
    (oauth.Start (testEnv "body" "https://idp.example/authorize") "google" "" none
        (some ⟨true, false, none⟩) none).outcome
        = Outcome.returned "" (some GoError.InvalidStepupJwtError) ∧
      (oauth.Start (testEnv "body" "https://idp.example/authorize") "google" "" none
        (some ⟨true, false, none⟩) none).trace = [] ∧
      postRequests (oauth.Start (testEnv "body" "https://idp.example/authorize") "google" ""
        none (some ⟨true, false, none⟩) none).trace = [] :=
  Start_stepup_without_token (testEnv "body" "https://idp.example/authorize") "google" "" none
    ⟨true, false, none⟩ none (Or.inl rfl) (by decide)

/-- C9: when the credential step of `Start` yields `pswd` without error, the
request to the authority succeeds with a response (`Res` not nil) and the body
parses to the URL `u`, `Start` returns `(u, nil)` and calls `redirectToURL`
exactly once, with exactly `u` and the given response writer. -/
theorem Start_returns_redirect_url (env : Env) (provider : OAuthProvider)
    (redirectURL : String) (r : Option Request) (loginOptions : Option LoginOptions)
    (w : Option ResponseWriter) (pswd : String) (resp : HTTPResponse) (raw : RawResponse)
    (u : String)
    (hcred : oauth.credential env r loginOptions = (pswd, none))
    (hpost : env.DoPostRequest env.composeOAuthURL loginOptions
      ⟨oauth.queryParams provider redirectURL⟩ pswd = (some resp, none))
    (hres : resp.Res = some raw)
    (hparse : env.Unmarshal resp.BodyStr ⟨""⟩ = (⟨u⟩, none)) :
    (oauth.Start env provider redirectURL r loginOptions w).outcome
        = Outcome.returned u none ∧
      redirects (oauth.Start env provider redirectURL r loginOptions w).trace = [(u, w)] := by
  simp [oauth.Start, hcred, hpost, hres, hparse, redirects]

/-- Witness of C9: an OAuth start without login options against an authority that
answers with a body parsing to `https://idp.example/authorize`. -/
theorem Start_returns_redirect_url_witness :
    (oauth.Start (testEnv "body" "https://idp.example/authorize") "google"
        "https://app.example/cb" none none (some ⟨1⟩)).outcome
        = Outcome.returned "https://idp.example/authorize" none ∧
      redirects (oauth.Start (testEnv "body" "https://idp.example/authorize") "google"
        "https://app.example/cb" none none (some ⟨1⟩)).trace
        = [("https://idp.example/authorize", some ⟨1⟩)] :=
  Start_returns_redirect_url (testEnv "body" "https://idp.example/authorize") "google"
    "https://app.example/cb" none none (some ⟨1⟩) "" ⟨some ⟨200⟩, "body"⟩ ⟨200⟩
    "https://idp.example/authorize" rfl rfl rfl rfl

/-- C10: for a step-up or MFA start whose inbound request carries the refresh
token `t` (`getValidRefreshToken` returns `t` without error), `Start` makes
exactly one outgoing request, its credential is exactly `t` and its body is the
login options, unchanged. -/
theorem Start_stepup_sends_refresh_token (env : Env) (provider : OAuthProvider)
    (redirectURL : String) (r : Option Request) (lo : LoginOptions)
    (w : Option ResponseWriter) (t : String)
    (hflag : lo.Stepup = true ∨ lo.MFA = true)
    (htok : env.getValidRefreshToken r = (t, none)) :
    postRequests (oauth.Start env provider redirectURL r (some lo) w).trace
      = [(env.composeOAuthURL, some lo, ⟨oauth.queryParams provider redirectURL⟩, t)] := by
  have hreq : LoginOptions.IsJWTRequired (some lo) = true := by
    simpa [LoginOptions.IsJWTRequired] using hflag
  have hcred : oauth.credential env r (some lo) = (t, none) := by
    simp [oauth.credential, hreq, htok]
  rcases hpost : env.DoPostRequest env.composeOAuthURL (some lo)
    ⟨oauth.queryParams provider redirectURL⟩ t with ⟨resp, err⟩
  cases err with
  | some e => simp [oauth.Start, hcred, hpost, postRequests]
  | none =>
    cases resp with
    | none => simp [oauth.Start, hcred, hpost, postRequests]
    | some httpResponse =>
      rcases hres : httpResponse.Res with _ | raw
      · simp [oauth.Start, hcred, hpost, hres, postRequests]
      · rcases hparse : env.Unmarshal httpResponse.BodyStr ⟨""⟩ with ⟨res, perr⟩
        cases perr with
        | some e => simp [oauth.Start, hcred, hpost, hres, hparse, postRequests]
        | none => simp [oauth.Start, hcred, hpost, hres, hparse, postRequests]

/-- Witness of C10: the step-up start of the test `TestSignInStartStepup`. The
request carries the cookie `DSR=test` and the options are
`LoginOptions{Stepup: true, CustomClaims: {"k1": "v1"}}`; the one outgoing request
carries the options unchanged and the credential `test`, which is the second of
the two colon-delimited parts of the bearer value (project id `a`). -/
theorem Start_stepup_sends_refresh_token_witness :
    postRequests (oauth.Start (testEnv "body" "https://idp.example/authorize") "google" ""
        (some ⟨[("DSR", "test")]⟩) (some ⟨true, false, some [("k1", Value.str "v1")]⟩)
        none).trace
      = [("/v1/oauth/start", some ⟨true, false, some [("k1", Value.str "v1")]⟩,
          ⟨[("provider", "google")]⟩, "test")] ∧
    sentBearerParts "a" (oauth.Start (testEnv "body" "https://idp.example/authorize")
        "google" "" (some ⟨[("DSR", "test")]⟩)
        (some ⟨true, false, some [("k1", Value.str "v1")]⟩) none).trace
      = [[['a'], ['t', 'e', 's', 't']]] :=
  ⟨Start_stepup_sends_refresh_token (testEnv "body" "https://idp.example/authorize") "google"
      "" (some ⟨[("DSR", "test")]⟩) ⟨true, false, some [("k1", Value.str "v1")]⟩ none "test"
      (Or.inl rfl) rfl,
    by
      rw [sentBearerParts, Start_stepup_sends_refresh_token
        (testEnv "body" "https://idp.example/authorize") "google" ""
        (some ⟨[("DSR", "test")]⟩) ⟨true, false, some [("k1", Value.str "v1")]⟩ none "test"
        (Or.inl rfl) rfl]
      decide⟩

/-- C11: `NewAuthenticationInfo(jRes, tok)` returns an `AuthenticationInfo` whose
SessionToken is `tok`, whose User is the user profile of `jRes` and whose
FirstSeen is the first-seen flag of `jRes`; with a nil `jRes` it returns
SessionToken `tok`, User nil and FirstSeen false (the function is total: it does
not fail). -/
theorem NewAuthenticationInfo_fields (tok : Option Token) :
    (∀ jRes : JWTResponse,
      (NewAuthenticationInfo (some jRes) tok).SessionToken = tok ∧
      (NewAuthenticationInfo (some jRes) tok).User = jRes.User ∧
      (NewAuthenticationInfo (some jRes) tok).FirstSeen = jRes.FirstSeen) ∧
    (NewAuthenticationInfo none tok).SessionToken = tok ∧
    (NewAuthenticationInfo none tok).User = none ∧
    (NewAuthenticationInfo none tok).FirstSeen = false :=
  ⟨fun _ => ⟨rfl, rfl, rfl⟩, rfl, rfl, rfl⟩

/-! ## Lemmas on the runs of `Start` -/

theorem utf8ByteSize_pos_iff (s : String) : 0 < s.utf8ByteSize ↔ s ≠ "" := by
  obtain ⟨cs⟩ := s
  cases cs with
  | nil => simp [String.utf8ByteSize, String.utf8ByteSize.go]
  | cons c rest =>
    constructor
    · intro _ h
      have h2 := congrArg String.data h
      simp at h2
    · intro _
      exact Nat.add_pos_right _ (Char.utf8Size_pos c)

theorem Start_run_cases (env : Env) (provider : OAuthProvider) (redirectURL : String)
    (r : Option Request) (loginOptions : Option LoginOptions) (w : Option ResponseWriter) :
    oauth.Start env provider redirectURL r loginOptions w
        = ⟨[], Outcome.returned "" (some GoError.InvalidStepupJwtError)⟩ ∨
      ∃ pswd : String,
        (∃ e, oauth.Start env provider redirectURL r loginOptions w
          = ⟨[Event.doPostRequest env.composeOAuthURL loginOptions
                ⟨oauth.queryParams provider redirectURL⟩ pswd],
              Outcome.returned "" (some e)⟩) ∨
        oauth.Start env provider redirectURL r loginOptions w
          = ⟨[Event.doPostRequest env.composeOAuthURL loginOptions
                ⟨oauth.queryParams provider redirectURL⟩ pswd],
              Outcome.panicked GoPanic.nilPointerDereference⟩ ∨
        oauth.Start env provider redirectURL r loginOptions w
          = ⟨[Event.doPostRequest env.composeOAuthURL loginOptions
                ⟨oauth.queryParams provider redirectURL⟩ pswd],
              Outcome.returned "" none⟩ ∨
        (∃ e, oauth.Start env provider redirectURL r loginOptions w
          = ⟨[Event.doPostRequest env.composeOAuthURL loginOptions
                ⟨oauth.queryParams provider redirectURL⟩ pswd,
              Event.logError "failed to parse location from response for [%s]" e provider],
              Outcome.returned "" (some e)⟩) ∨
        (∃ u, oauth.Start env provider redirectURL r loginOptions w
          = ⟨[Event.doPostRequest env.composeOAuthURL loginOptions
                ⟨oauth.queryParams provider redirectURL⟩ pswd,
              Event.redirectToURL u w],
              Outcome.returned u none⟩) := by
  rcases hcred : oauth.credential env r loginOptions with ⟨pswd, cerr⟩
  cases cerr with
  | some e => left; simp [oauth.Start, hcred]
  | none =>
    right
    refine ⟨pswd, ?_⟩
    rcases hpost : env.DoPostRequest env.composeOAuthURL loginOptions
      ⟨oauth.queryParams provider redirectURL⟩ pswd with ⟨resp, err⟩
    cases err with
    | some e => left; exact ⟨e, by simp [oauth.Start, hcred, hpost]⟩
    | none =>
      right
      cases resp with
      | none => left; simp [oauth.Start, hcred, hpost]
      | some httpResponse =>
        right
        rcases hres : httpResponse.Res with _ | raw
        · left; simp [oauth.Start, hcred, hpost, hres]
        · right
          rcases hparse : env.Unmarshal httpResponse.BodyStr ⟨""⟩ with ⟨res, perr⟩
          cases perr with
          | some e => left; exact ⟨e, by simp [oauth.Start, hcred, hpost, hres, hparse]⟩
          | none => right; exact ⟨res.URL, by simp [oauth.Start, hcred, hpost, hres, hparse]⟩

/-! ## Theorems on `oauth.go`: failures -/

/-- C12: `Start` does not swallow a failure. When the request to the authority
fails with error `e`, `Start` returns exactly `e`; when the body of the response
fails to parse with error `e`, `Start` returns exactly `e`; and whenever `Start`
returns a non-nil error, the returned URL is empty and no redirect is written. -/
theorem Start_propagates_errors (env : Env) (provider : OAuthProvider)
    (redirectURL : String) (r : Option Request) (loginOptions : Option LoginOptions)
    (w : Option ResponseWriter) :
    (∀ (pswd : String) (resp : Option HTTPResponse) (e : GoError),
      oauth.credential env r loginOptions = (pswd, none) →
      env.DoPostRequest env.composeOAuthURL loginOptions
        ⟨oauth.queryParams provider redirectURL⟩ pswd = (resp, some e) →
      (oauth.Start env provider redirectURL r loginOptions w).outcome
        = Outcome.returned "" (some e)) ∧
    (∀ (pswd : String) (resp : HTTPResponse) (raw : RawResponse) (res : oauthStartResponse)
        (e : GoError),
      oauth.credential env r loginOptions = (pswd, none) →
      env.DoPostRequest env.composeOAuthURL loginOptions
        ⟨oauth.queryParams provider redirectURL⟩ pswd = (some resp, none) →
      resp.Res = some raw →
      env.Unmarshal resp.BodyStr ⟨""⟩ = (res, some e) →
      (oauth.Start env provider redirectURL r loginOptions w).outcome
        = Outcome.returned "" (some e)) ∧
    (∀ (url : String) (e : GoError),
      (oauth.Start env provider redirectURL r loginOptions w).outcome
        = Outcome.returned url (some e) →
      url = "" ∧ redirects (oauth.Start env provider redirectURL r loginOptions w).trace = []) := by
  refine ⟨?_, ?_, ?_⟩
  · intro pswd resp e hcred hpost
    simp [oauth.Start, hcred, hpost]
  · intro pswd resp raw res e hcred hpost hres hparse
    simp [oauth.Start, hcred, hpost, hres, hparse]
  · intro url e hout
    rcases Start_run_cases env provider redirectURL r loginOptions w with
      h | ⟨pswd, ⟨e1, h⟩ | h | h | ⟨e1, h⟩ | ⟨u, h⟩⟩
    all_goals
      rw [h] at hout ⊢
      simp only [Outcome.returned.injEq] at hout
    · exact ⟨hout.1.symm, rfl⟩
    · exact ⟨hout.1.symm, rfl⟩
    · exact absurd hout (by simp)
    · exact absurd hout.2 (by simp)
    · exact ⟨hout.1.symm, rfl⟩
    · exact absurd hout.2 (by simp)

/-- Witness of C12: against an authority whose request fails with the error
`unreachable`, `Start` returns the empty URL and exactly that error. -/
theorem Start_propagates_errors_witness :
    (oauth.Start (stubEnv (none, some (GoError.other "unreachable")) (⟨""⟩, none)) "google" ""
        none none (some ⟨1⟩)).outcome
      = Outcome.returned "" (some (GoError.other "unreachable")) :=
  (Start_propagates_errors (stubEnv (none, some (GoError.other "unreachable")) (⟨""⟩, none))
      "google" "" none none (some ⟨1⟩)).1 "" none (GoError.other "unreachable") rfl rfl

/-- C15: when the request to the authority succeeds with a response object whose
underlying response `Res` is nil, `Start` returns the empty URL with a nil error
and writes no redirect; so there is an input on which `Start` reports success
without a redirect URL. -/
theorem Start_success_without_response :
    (∀ (env : Env) (provider : OAuthProvider) (redirectURL : String) (r : Option Request)
        (loginOptions : Option LoginOptions) (w : Option ResponseWriter) (pswd : String)
        (resp : HTTPResponse),
      oauth.credential env r loginOptions = (pswd, none) →
      env.DoPostRequest env.composeOAuthURL loginOptions
        ⟨oauth.queryParams provider redirectURL⟩ pswd = (some resp, none) →
      resp.Res = none →
      (oauth.Start env provider redirectURL r loginOptions w).outcome
          = Outcome.returned "" none ∧
        redirects (oauth.Start env provider redirectURL r loginOptions w).trace = []) ∧
    (∃ (env : Env) (provider : OAuthProvider) (redirectURL : String) (r : Option Request)
        (loginOptions : Option LoginOptions) (w : Option ResponseWriter),
      (oauth.Start env provider redirectURL r loginOptions w).outcome
          = Outcome.returned "" none ∧
        redirects (oauth.Start env provider redirectURL r loginOptions w).trace = []) := by
  have key : ∀ (env : Env) (provider : OAuthProvider) (redirectURL : String)
      (r : Option Request) (loginOptions : Option LoginOptions) (w : Option ResponseWriter)
      (pswd : String) (resp : HTTPResponse),
      oauth.credential env r loginOptions = (pswd, none) →
      env.DoPostRequest env.composeOAuthURL loginOptions
        ⟨oauth.queryParams provider redirectURL⟩ pswd = (some resp, none) →
      resp.Res = none →
      (oauth.Start env provider redirectURL r loginOptions w).outcome
          = Outcome.returned "" none ∧
        redirects (oauth.Start env provider redirectURL r loginOptions w).trace = [] := by
    intro env provider redirectURL r loginOptions w pswd resp hcred hpost hres
    simp [oauth.Start, hcred, hpost, hres, redirects]
  exact ⟨key, stubEnv (some ⟨none, ""⟩, none) (⟨""⟩, none), "google", "", none, none,
    some ⟨1⟩, key _ "google" "" none none (some ⟨1⟩) "" ⟨none, ""⟩ rfl rfl rfl⟩

/-- Witness of C15: an authority that answers with a response object without
underlying response; `Start` returns `("", nil)` and no redirect is written. -/
theorem Start_success_without_response_witness :
    (oauth.Start (stubEnv (some ⟨none, ""⟩, none) (⟨""⟩, none)) "google" "" none none
        (some ⟨1⟩)).outcome = Outcome.returned "" none ∧
      redirects (oauth.Start (stubEnv (some ⟨none, ""⟩, none) (⟨""⟩, none)) "google" "" none
        none (some ⟨1⟩)).trace = [] :=
  Start_success_without_response.1 (stubEnv (some ⟨none, ""⟩, none) (⟨""⟩, none)) "google" ""
    none none (some ⟨1⟩) "" ⟨none, ""⟩ rfl rfl rfl

/-! ## Theorems on `types.go`: factors that are not strings -/

theorem map_str_filterMap_asString_sublist (xs : List Value) :
    List.Sublist ((xs.filterMap Value.asString).map Value.str) xs := by
  induction xs with
  | nil => simp
  | cons x rest ih =>
    cases x with
    | str s =>
      simpa [List.filterMap_cons, Value.asString] using ih
    | _ =>
      simpa [List.filterMap_cons, Value.asString] using List.Sublist.cons _ ih

theorem length_filterMap_asString_lt (xs : List Value)
    (h : ∃ x, x ∈ xs ∧ ∀ s, x ≠ Value.str s) :
    (xs.filterMap Value.asString).length < xs.length := by
  induction xs with
  | nil =>
    obtain ⟨x, hx, _⟩ := h
    cases hx
  | cons y rest ih =>
    have hle : (rest.filterMap Value.asString).length ≤ rest.length :=
      List.length_filterMap_le _ _
    cases y with
    | str s =>
      have hrest : ∃ x, x ∈ rest ∧ ∀ s, x ≠ Value.str s := by
        obtain ⟨x, hx, hns⟩ := h
        rcases List.mem_cons.1 hx with hx | hx
        · exact absurd hx (hns s)
        · exact ⟨x, hx, hns⟩
      have := ih hrest
      simp only [List.filterMap_cons, Value.asString, List.length_cons]
      omega
    | _ =>
      simp only [List.filterMap_cons, Value.asString, List.length_cons]
      omega

/-- C13: for a token whose `amr` claim is a list, `AuthFactors()` is exactly the
subsequence of the string elements of the list, in order: the elements that are
not strings are skipped. Its length is at most the length of the list, and
strictly less when some element is not a string. -/
theorem AuthFactors_skips_non_strings (tok : Token) (claims : GoMap Value)
    (xs : List Value)
    (hclaims : tok.Claims = some claims)
    (hamr : GoMap.lookup claims "amr" = some (Value.arr xs)) :
    tok.AuthFactors = xs.filterMap Value.asString ∧
      List.Sublist (tok.AuthFactors.map Value.str) xs ∧
      tok.AuthFactors.length ≤ xs.length ∧
      ((∃ x, x ∈ xs ∧ ∀ s, x ≠ Value.str s) → tok.AuthFactors.length < xs.length) := by
  have h : tok.AuthFactors = xs.filterMap Value.asString := by
    rw [AuthFactors_eq_encodedFactors]
    unfold encodedFactors
    rw [hclaims]
    simp only [hamr]
  rw [h]
  exact ⟨rfl, map_str_filterMap_asString_sublist xs, List.length_filterMap_le _ _,
    length_filterMap_asString_lt xs⟩

/-- Witness of C13: the token with `amr = ["email", 1, "totp"]` has the factors
`email` and `totp`, fewer than the three elements of the list. -/
theorem AuthFactors_skips_non_strings_witness :
    Token.AuthFactors ⟨0, 0, "", "", "", some [("amr",
        Value.arr [Value.str "email", Value.num 1, Value.str "totp"])]⟩ = ["email", "totp"] ∧
      (Token.AuthFactors ⟨0, 0, "", "", "", some [("amr",
        Value.arr [Value.str "email", Value.num 1, Value.str "totp"])]⟩).length < 3 :=
  have h := AuthFactors_skips_non_strings
    ⟨0, 0, "", "", "", some [("amr",
      Value.arr [Value.str "email", Value.num 1, Value.str "totp"])]⟩
    [("amr", Value.arr [Value.str "email", Value.num 1, Value.str "totp"])]
    [Value.str "email", Value.num 1, Value.str "totp"] rfl rfl
  ⟨h.1, h.2.2.2 ⟨Value.num 1, by simp, fun s hs => by cases hs⟩⟩

/-- C14: `AuthFactors()` is total and defaults to no factors. For a token whose
claims are nil, whose `amr` claim is absent, or whose `amr` claim is not a list,
`AuthFactors()` returns the empty list and `IsMFA()` returns false. -/
theorem AuthFactors_defaults (tok : Token) :
    (tok.Claims = none → tok.AuthFactors = [] ∧ tok.IsMFA = false) ∧
    (∀ claims : GoMap Value, tok.Claims = some claims →
      GoMap.lookup claims "amr" = none → tok.AuthFactors = [] ∧ tok.IsMFA = false) ∧
    (∀ (claims : GoMap Value) (v : Value), tok.Claims = some claims →
      GoMap.lookup claims "amr" = some v → (∀ xs, v ≠ Value.arr xs) →
      tok.AuthFactors = [] ∧ tok.IsMFA = false) := by
  have hmfa : tok.AuthFactors = [] → tok.AuthFactors = [] ∧ tok.IsMFA = false := by
    intro h
    exact ⟨h, by simp [Token.IsMFA, h]⟩
  refine ⟨?_, ?_, ?_⟩
  · intro hclaims
    apply hmfa
    rw [Token.AuthFactors, hclaims]
  · intro claims hclaims hamr
    apply hmfa
    rw [Token.AuthFactors, hclaims]
    simp only [hamr]
  · intro claims v hclaims hamr hv
    apply hmfa
    rw [Token.AuthFactors, hclaims]
    simp only []
    rw [hamr]
    cases v with
    | arr xs => exact absurd rfl (hv xs)
    | _ => rfl

/-- Witness of C14: a token whose `amr` claim is the string `email`, not a list,
has no factors and is not MFA. -/
theorem AuthFactors_defaults_witness :
    Token.AuthFactors ⟨0, 0, "", "", "", some [("amr", Value.str "email")]⟩ = [] ∧
      Token.IsMFA ⟨0, 0, "", "", "", some [("amr", Value.str "email")]⟩ = false :=
  (AuthFactors_defaults ⟨0, 0, "", "", "", some [("amr", Value.str "email")]⟩).2.2
    [("amr", Value.str "email")] (Value.str "email") rfl rfl (fun xs h => by cases h)

/-! ## Theorems on `oauth.go`: the query parameters -/

theorem queryParams_of_empty (provider : OAuthProvider) :
    oauth.queryParams provider "" = [("provider", provider)] := by
  simp [oauth.queryParams, String.utf8ByteSize, String.utf8ByteSize.go]

theorem queryParams_of_nonempty (provider : OAuthProvider) (redirectURL : String)
    (h : redirectURL ≠ "") :
    oauth.queryParams provider redirectURL
      = [("provider", provider), ("redirectURL", redirectURL)] := by
  have hpos : 0 < redirectURL.utf8ByteSize := (utf8ByteSize_pos_iff redirectURL).2 h
  have hne : ¬ ("provider" = "redirectURL") := by decide
  simp [oauth.queryParams, hpos, GoMap.insert, hne]

theorem Start_postRequests_options (env : Env) (provider : OAuthProvider)
    (redirectURL : String) (r : Option Request) (loginOptions : Option LoginOptions)
    (w : Option ResponseWriter) (p : String × Option LoginOptions × HTTPRequest × String)
    (hp : p ∈ postRequests (oauth.Start env provider redirectURL r loginOptions w).trace) :
    p.2.2.1.QueryParams = oauth.queryParams provider redirectURL := by
  rcases Start_run_cases env provider redirectURL r loginOptions w with
    h | ⟨pswd, ⟨e1, h⟩ | h | h | ⟨e1, h⟩ | ⟨u, h⟩⟩
  all_goals
    rw [h] at hp
    simp only [postRequests, List.mem_singleton, List.not_mem_nil] at hp
  all_goals
    rw [hp]

/-- C16: the query parameters of every request `Start` sends contain `provider`
set to the given provider, contain `redirectURL` if and only if the given
redirect URL is not empty, then set to that URL, and contain no other key. -/
theorem Start_query_params (env : Env) (provider : OAuthProvider) (redirectURL : String)
    (r : Option Request) (loginOptions : Option LoginOptions) (w : Option ResponseWriter)
    (p : String × Option LoginOptions × HTTPRequest × String)
    (hp : p ∈ postRequests (oauth.Start env provider redirectURL r loginOptions w).trace) :
    GoMap.lookup p.2.2.1.QueryParams "provider" = some provider ∧
      ((GoMap.lookup p.2.2.1.QueryParams "redirectURL").isSome = true ↔ redirectURL ≠ "") ∧
      (redirectURL ≠ "" →
        GoMap.lookup p.2.2.1.QueryParams "redirectURL" = some redirectURL) ∧
      (∀ k, (GoMap.lookup p.2.2.1.QueryParams k).isSome = true →
        k = "provider" ∨ k = "redirectURL") := by
  rw [Start_postRequests_options env provider redirectURL r loginOptions w p hp]
  have hne : ¬ ("provider" = "redirectURL") := by decide
  by_cases h : redirectURL = ""
  · subst h
    rw [queryParams_of_empty]
    refine ⟨by simp [GoMap.lookup], by simp [GoMap.lookup, hne], fun h2 => absurd rfl h2, ?_⟩
    intro k hk
    by_cases hk1 : "provider" = k
    · exact Or.inl hk1.symm
    · simp [GoMap.lookup, hk1] at hk
  · rw [queryParams_of_nonempty provider redirectURL h]
    refine ⟨by simp [GoMap.lookup], by simp [GoMap.lookup, hne, h],
      fun _ => by simp [GoMap.lookup, hne], ?_⟩
    intro k hk
    by_cases hk1 : "provider" = k
    · exact Or.inl hk1.symm
    · by_cases hk2 : "redirectURL" = k
      · exact Or.inr hk2.symm
      · simp [GoMap.lookup, hk1, hk2] at hk

/-- Witness of C16: an OAuth start with provider `google` and redirect URL
`https://app.example/cb`; the one request sent carries both query parameters. -/
theorem Start_query_params_witness :
    (("/v1/oauth/start", none,
        ⟨[("provider", "google"), ("redirectURL", "https://app.example/cb")]⟩, "") :
        String × Option LoginOptions × HTTPRequest × String)
      ∈ postRequests (oauth.Start (testEnv "body" "https://idp.example/authorize") "google"
          "https://app.example/cb" none none none).trace ∧
    GoMap.lookup [("provider", "google"), ("redirectURL", "https://app.example/cb")]
        "provider" = some "google" ∧
      GoMap.lookup [("provider", "google"), ("redirectURL", "https://app.example/cb")]
        "redirectURL" = some "https://app.example/cb" :=
  have h := Start_query_params (testEnv "body" "https://idp.example/authorize") "google"
    "https://app.example/cb" none none none
    ("/v1/oauth/start", none,
      ⟨[("provider", "google"), ("redirectURL", "https://app.example/cb")]⟩, "")
    (List.Mem.head _)
  ⟨List.Mem.head _, h.1, h.2.2.1 (by decide)⟩

end Descope
